import Mathlib

/-!
Verification development for the retail transaction query pipeline.

The JavaScript services of the repository (search, filter, sort, pagination,
aggregation, validation, and the two query backends) are shallowly embedded as
executable Lean functions over a `Transaction` record type.  JavaScript numbers
are modelled as rationals (`Rat`), machine timestamps as `Int`, possibly
missing fields as `Option`, and `NaN`-producing parses as `Option` with `none`
for the invalid case.  Each embedded definition carries a reference to the
source function it translates.
-/

/-- JS truthiness of an optional number: `undefined`, and `0`, are falsy. -/
def truthyQ : Option Rat → Bool
  | none => false
  | some x => x != 0

/-- JS `a || d` for an optional number `a` and a number `d`. -/
def jsOrQ (a : Option Rat) (d : Rat) : Rat :=
  match a with
  | none => d
  | some x => if x = 0 then d else x

/-- JS `a || d` for an optional string `a` (empty string is falsy). -/
def jsOrStr (a : Option String) (d : String) : String :=
  match a with
  | none => d
  | some s => if s = "" then d else s

/-- JS truthiness of an optional string. -/
def truthyStr : Option String → Bool
  | none => false
  | some s => s != ""

/-- Character-list prefix test (auxiliary for the substring test). -/
def leadsWith : List Char → List Char → Bool
  | [], _ => true
  | _ :: _, [] => false
  | c :: cs, d :: ds => c = d && leadsWith cs ds

/-- Character-list substring test: does the second list contain the first? -/
def hasSubstr : List Char → List Char → Bool
  | sub, [] => sub.isEmpty
  | sub, c :: cs => leadsWith sub (c :: cs) || hasSubstr sub cs

/-- Model of JS `s.includes(sub)`: substring containment. -/
def strContains (s sub : String) : Bool :=
  hasSubstr sub.data s.data

/-- Model of JS `s.toLowerCase()`: character-wise lower-casing. -/
def jsToLower (s : String) : String :=
  String.mk (s.data.map Char.toLower)

/-- The whitespace characters JS `trim` removes (the common ones). -/
def isWspChar (c : Char) : Bool :=
  c = ' ' || c = '\t' || c = '\n' || c = '\r'

/-- Model of JS `s.trim()`: strip leading and trailing whitespace. -/
def jsTrim (s : String) : String :=
  String.mk (((s.data.dropWhile isWspChar).reverse.dropWhile isWspChar).reverse)

/-- Lexicographic comparison of character lists by code point. -/
def charsLt : List Char → List Char → Bool
  | [], [] => false
  | [], _ :: _ => true
  | _ :: _, [] => false
  | a :: as, b :: bs =>
    if a.toNat < b.toNat then true
    else if b.toNat < a.toNat then false
    else charsLt as bs

/-- Model of JS `a < b` on strings: lexicographic by code unit. -/
def strLtB (a b : String) : Bool :=
  charsLt a.data b.data

/-- Three-way string comparison derived from `strLtB`. -/
def strCmpB (a b : String) : Ordering :=
  if strLtB a b then Ordering.lt else if strLtB b a then Ordering.gt else Ordering.eq

/-- A transaction record, after ingestion.  Fields that the Mongo schema marks
optional, or that JS code defends against with `|| ''` / `|| 0`, are `Option`;
`date` is the parsed timestamp of the stored date string, `none` modelling an
unparsable date (a `NaN` timestamp). -/
structure Transaction where
  transactionId : String
  customerId : String
  customerName : Option String
  phoneNumber : Option String
  gender : String
  age : Rat
  customerRegion : String
  productId : String
  productName : String
  productCategory : String
  tags : List String
  quantity : Rat
  totalAmount : Option Rat
  finalAmount : Option Rat
  date : Option Int
  paymentMethod : String
  employeeName : String
deriving DecidableEq

/-- A transaction with every field empty or zero, used to build concrete
records compactly. -/
def defaultTxn : Transaction :=
  { transactionId := ""
    customerId := ""
    customerName := none
    phoneNumber := none
    gender := ""
    age := 0
    customerRegion := ""
    productId := ""
    productName := ""
    productCategory := ""
    tags := []
    quantity := 0
    totalAmount := none
    finalAmount := none
    date := none
    paymentMethod := ""
    employeeName := "" }

namespace SearchService

/-- The record predicate of `SearchService.searchTransactions`
(src/frontend/src/hooks/useDebounce.test.js bundle): the lower-cased
`customerName` or the raw `phoneNumber` contains the normalized term. -/
def searchMatches (normalizedTerm : String) (t : Transaction) : Bool :=
  strContains (jsToLower (jsOrStr t.customerName (""))) normalizedTerm ||
  strContains (jsOrStr t.phoneNumber ("")) normalizedTerm

/-- Model of `SearchService.searchTransactions`.  A `none` term models a
null, undefined or non-string argument; the first guard also catches the
falsy empty string, and the second the whitespace-only term. -/
def searchTransactions (data : List Transaction) (searchTerm : Option String) :
    List Transaction :=
  match searchTerm with
  | none => data
  | some s =>
    if s = "" then data
    else
      let normalizedTerm := jsTrim (jsToLower s)
      if normalizedTerm = "" then data
      else data.filter (searchMatches normalizedTerm)

end SearchService

/-- Age range criterion: `{min?, max?}`. -/
structure AgeRange where
  min : Option Rat
  max : Option Rat
deriving DecidableEq

/-- Date range criterion: `{start?, end?}`.  The outer `Option` is presence
(a falsy bound is absent), the inner `Option Int` is the parsed timestamp of
the bound string, `none` for an invalid date. -/
structure DateRange where
  start : Option (Option Int)
  endB : Option (Option Int)
deriving DecidableEq

/-- The filter criteria object.  `none` models an absent key. -/
structure Filters where
  customerRegion : Option (List String)
  gender : Option (List String)
  ageRange : Option AgeRange
  productCategory : Option (List String)
  tags : Option (List String)
  paymentMethod : Option (List String)
  dateRange : Option DateRange
deriving DecidableEq

/-- The empty filter object `{}`. -/
def Filters.empty : Filters :=
  { customerRegion := none
    gender := none
    ageRange := none
    productCategory := none
    tags := none
    paymentMethod := none
    dateRange := none }

namespace FilterService

/-- Model of `FilterService.filterByCustomerRegion`. -/
def filterByCustomerRegion (data : List Transaction) (regions : List String) :
    List Transaction :=
  if regions.isEmpty then data
  else data.filter fun t => regions.contains t.customerRegion

/-- Model of `FilterService.filterByGender`. -/
def filterByGender (data : List Transaction) (genders : List String) :
    List Transaction :=
  if genders.isEmpty then data
  else data.filter fun t => genders.contains t.gender

/-- The record predicate of `FilterService.filterByAgeRange`: the cascade of
`min`/`max` checks of the source. -/
def ageMatches (range : AgeRange) (t : Transaction) : Bool :=
  match range.min, range.max with
  | some mn, some mx => mn ≤ t.age && t.age ≤ mx
  | some mn, none => mn ≤ t.age
  | none, some mx => t.age ≤ mx
  | none, none => true

/-- Model of `FilterService.filterByAgeRange`. -/
def filterByAgeRange (data : List Transaction) (range : AgeRange) :
    List Transaction :=
  data.filter (ageMatches range)

/-- Model of `FilterService.filterByProductCategory`. -/
def filterByProductCategory (data : List Transaction) (categories : List String) :
    List Transaction :=
  if categories.isEmpty then data
  else data.filter fun t => categories.contains t.productCategory

/-- The record predicate of `FilterService.filterByTags`: some filter tag is
among the record's tags. -/
def tagsMatch (filterTags : List String) (t : Transaction) : Bool :=
  filterTags.any fun tag => t.tags.contains tag

/-- Model of `FilterService.filterByTags`. -/
def filterByTags (data : List Transaction) (filterTags : List String) :
    List Transaction :=
  if filterTags.isEmpty then data
  else data.filter (tagsMatch filterTags)

/-- Model of `FilterService.filterByPaymentMethod`. -/
def filterByPaymentMethod (data : List Transaction) (methods : List String) :
    List Transaction :=
  if methods.isEmpty then data
  else data.filter fun t => methods.contains t.paymentMethod

/-- JS `d >= b` on parsed timestamps, where either side may be a `NaN`
(`none`): any comparison with `NaN` is false. -/
def tsGE (d b : Option Int) : Bool :=
  match d, b with
  | some x, some y => y ≤ x
  | _, _ => false

/-- JS `d <= b` on parsed timestamps, `NaN` compares false. -/
def tsLE (d b : Option Int) : Bool :=
  match d, b with
  | some x, some y => x ≤ y
  | _, _ => false

/-- The record predicate of `FilterService.filterByDateRange`: the
start/end cascade of the source, on parsed timestamps. -/
def dateMatches (range : DateRange) (t : Transaction) : Bool :=
  match range.start, range.endB with
  | some s, some e => tsGE t.date s && tsLE t.date e
  | some s, none => tsGE t.date s
  | none, some e => tsLE t.date e
  | none, none => true

/-- Model of `FilterService.filterByDateRange`. -/
def filterByDateRange (data : List Transaction) (range : DateRange) :
    List Transaction :=
  data.filter (dateMatches range)

/-- Model of `FilterService.applyFilters` (src/backend/src/services/filterService.js,
lines 17-54): each present, non-empty criterion is applied in the source's
order; a missing or non-object `filters` payload (`none`) is the identity. -/
def applyFilters (data : List Transaction) : Option Filters → List Transaction
  | none => data
  | some f =>
    let r1 := match f.customerRegion with
      | some l => if l.isEmpty then data else filterByCustomerRegion data l
      | none => data
    let r2 := match f.gender with
      | some l => if l.isEmpty then r1 else filterByGender r1 l
      | none => r1
    let r3 := match f.ageRange with
      | some r => filterByAgeRange r2 r
      | none => r2
    let r4 := match f.productCategory with
      | some l => if l.isEmpty then r3 else filterByProductCategory r3 l
      | none => r3
    let r5 := match f.tags with
      | some l => if l.isEmpty then r4 else filterByTags r4 l
      | none => r4
    let r6 := match f.paymentMethod with
      | some l => if l.isEmpty then r5 else filterByPaymentMethod r5 l
      | none => r5
    let r7 := match f.dateRange with
      | some r => filterByDateRange r6 r
      | none => r6
    r7

/-- The condition the customer-region stage imposes (trivial when absent or
empty). -/
def regionCond (f : Filters) (t : Transaction) : Bool :=
  match f.customerRegion with
  | some l => if l.isEmpty then true else l.contains t.customerRegion
  | none => true

/-- The condition the gender stage imposes. -/
def genderCond (f : Filters) (t : Transaction) : Bool :=
  match f.gender with
  | some l => if l.isEmpty then true else l.contains t.gender
  | none => true

/-- The condition the age-range stage imposes. -/
def ageCond (f : Filters) (t : Transaction) : Bool :=
  match f.ageRange with
  | some r => ageMatches r t
  | none => true

/-- The condition the product-category stage imposes. -/
def categoryCond (f : Filters) (t : Transaction) : Bool :=
  match f.productCategory with
  | some l => if l.isEmpty then true else l.contains t.productCategory
  | none => true

/-- The condition the tags stage imposes. -/
def tagsCond (f : Filters) (t : Transaction) : Bool :=
  match f.tags with
  | some l => if l.isEmpty then true else tagsMatch l t
  | none => true

/-- The condition the payment-method stage imposes. -/
def paymentCond (f : Filters) (t : Transaction) : Bool :=
  match f.paymentMethod with
  | some l => if l.isEmpty then true else l.contains t.paymentMethod
  | none => true

/-- The condition the date-range stage imposes. -/
def dateCond (f : Filters) (t : Transaction) : Bool :=
  match f.dateRange with
  | some r => dateMatches r t
  | none => true

/-- Model of `FilterService.getFilterOptions` result (the array backend's
option lists, keyed as in the source). -/
structure FilterOptionsA where
  regions : List String
  genders : List String
  categories : List String
  tags : List String
  paymentMethods : List String
deriving DecidableEq

end FilterService

/-- Stable insertion of `x` into `l`, modelling one step of JS
`Array.prototype.sort`: `gt a b` models `comparator(a, b) > 0`, and an element
is inserted before the first element it does not compare greater than. -/
def sortInsert (gt : α → α → Bool) (x : α) : List α → List α
  | [] => [x]
  | y :: ys => if gt x y then y :: sortInsert gt x ys else x :: y :: ys

/-- Stable sort by repeated insertion, the model of JS `Array.prototype.sort`
(which the ECMAScript specification requires to be stable). -/
def sortListBy (gt : α → α → Bool) : List α → List α
  | [] => []
  | x :: xs => sortInsert gt x (sortListBy gt xs)

/-- Ascending JS default string sort comparator turned into `gt`. -/
def strGt (a b : String) : Bool := strLtB b a

/-- JS `Array.from(set).sort()` over the distinct values of a list: duplicates
removed, then default lexicographic ascending sort. -/
def sortedDistinct (l : List String) : List String :=
  sortListBy strGt l.dedup

namespace FilterService

/-- Model of `FilterService.getFilterOptions`
(src/backend/src/services/filterService.js, lines 207-242): distinct non-empty
values of each filterable field over the given records, sorted; individual
tags are collected without an emptiness check, as in the source. -/
def getFilterOptions (data : List Transaction) : FilterOptionsA :=
  { regions := sortedDistinct (data.filterMap fun t =>
      if t.customerRegion = "" then none else some t.customerRegion)
    genders := sortedDistinct (data.filterMap fun t =>
      if t.gender = "" then none else some t.gender)
    categories := sortedDistinct (data.filterMap fun t =>
      if t.productCategory = "" then none else some t.productCategory)
    tags := sortedDistinct (data.flatMap fun t => t.tags)
    paymentMethods := sortedDistinct (data.filterMap fun t =>
      if t.paymentMethod = "" then none else some t.paymentMethod) }

end FilterService

namespace SortService

/-- Lower-cased customer name with the `|| ''` default, the comparison key of
`SortService.sortByCustomerName`. -/
def nameKey (t : Transaction) : String :=
  jsToLower (jsOrStr t.customerName (""))

/-- `comparator(a, b) > 0` for `SortService.sortByDate`: parsed timestamps
are subtracted; if either date is unparsable the subtraction is `NaN`, which
`Array.prototype.sort` treats as zero (equal). -/
def dateGt (sortOrder : String) (a b : Transaction) : Bool :=
  match a.date, b.date with
  | some x, some y => if sortOrder = "asc" then y < x else x < y
  | _, _ => false

/-- `comparator(a, b) > 0` for `SortService.sortByQuantity` (`a.quantity || 0`
is `a.quantity` here, since a zero quantity maps to zero either way). -/
def quantityGt (sortOrder : String) (a b : Transaction) : Bool :=
  if sortOrder = "asc" then b.quantity < a.quantity else a.quantity < b.quantity

/-- `comparator(a, b) > 0` for `SortService.sortByCustomerName`, modelling
`localeCompare` on the lower-cased names by string comparison: the ascending
comparison is positive when the second key precedes the first, the descending
one (its negation) when the first precedes the second. -/
def nameGt (sortOrder : String) (a b : Transaction) : Bool :=
  if sortOrder = "asc" then strLtB (nameKey b) (nameKey a)
  else strLtB (nameKey a) (nameKey b)

/-- Model of `SortService.sortByDate` (src/unnamed/part_005, lines 55-66). -/
def sortByDate (data : List Transaction) (sortOrder : String) : List Transaction :=
  sortListBy (dateGt sortOrder) data

/-- Model of `SortService.sortByQuantity` (src/unnamed/part_005, lines 74-85). -/
def sortByQuantity (data : List Transaction) (sortOrder : String) : List Transaction :=
  sortListBy (quantityGt sortOrder) data

/-- Model of `SortService.sortByCustomerName` (src/unnamed/part_005,
lines 93-106). -/
def sortByCustomerName (data : List Transaction) (sortOrder : String) : List Transaction :=
  sortListBy (nameGt sortOrder) data

/-- The supported sort fields of `SortService`. -/
def validSortFields : List String := ["date", "quantity", "customerName"]

/-- Model of `SortService.sortTransactions` (src/unnamed/part_005, lines
18-47): empty data and unsupported fields are returned unchanged; otherwise a
copy is sorted by the selected comparator. -/
def sortTransactions (data : List Transaction) (sortBy sortOrder : String) :
    List Transaction :=
  if data.isEmpty then data
  else if !(validSortFields.contains sortBy) then data
  else if sortBy = "date" then sortByDate data sortOrder
  else if sortBy = "quantity" then sortByQuantity data sortOrder
  else if sortBy = "customerName" then sortByCustomerName data sortOrder
  else data

/-- The comparison key of each supported sort field (`other` for a field the
sort ignores). -/
inductive SortKey where
  | date (t : Option Int)
  | qty (q : Rat)
  | name (s : String)
  | other
deriving DecidableEq

/-- The comparison key `sortTransactions` orders by for a given `sortBy`. -/
def sortKey (sortBy : String) (t : Transaction) : SortKey :=
  if sortBy = "date" then SortKey.date t.date
  else if sortBy = "quantity" then SortKey.qty t.quantity
  else if sortBy = "customerName" then SortKey.name (nameKey t)
  else SortKey.other

end SortService

namespace PaginationService

/-- Model of `PaginationService.validatePage`
(src/backend/src/services/paginationService.js, lines 58-66): a `none`
(non-numeric) or sub-1 page becomes 1. -/
def validatePage : Option Int → Int
  | none => 1
  | some p => if p < 1 then 1 else p

/-- Model of `PaginationService.validatePageSize` (lines 73-83): a `none`
(non-numeric) or sub-1 size becomes the default 10, and sizes are capped
at 100. -/
def validatePageSize : Option Int → Int
  | none => 10
  | some n => if n < 1 then 10 else min n 100

/-- The result of `PaginationService.paginate`: the page slice plus its
navigation metadata. -/
structure PageResult where
  items : List Transaction
  currentPage : Int
  pageSize : Int
  totalItems : Nat
  totalPages : Nat
  hasNextPage : Bool
  hasPreviousPage : Bool
  startIndex : Nat
  endIndex : Nat
deriving DecidableEq

/-- Model of `PaginationService.paginate` (lines 16-51): normalize the
inputs, compute `totalPages = ceil(totalItems / pageSize)`, clamp the page
into `[1, totalPages || 1]`, and slice. -/
def paginate (data : List Transaction) (page pageSize : Option Int) : PageResult :=
  let parsedPage := validatePage page
  let ps := (validatePageSize pageSize).toNat
  let totalItems := data.length
  let totalPages := (totalItems + ps - 1) / ps
  let clampTop : Int := if totalPages = 0 then 1 else (totalPages : Int)
  let validPage : Int := max 1 (min parsedPage clampTop)
  let startIndex := (validPage - 1).toNat * ps
  let items := (data.drop startIndex).take ps
  { items := items
    currentPage := validPage
    pageSize := validatePageSize pageSize
    totalItems := totalItems
    totalPages := totalPages
    hasNextPage := decide (validPage < (totalPages : Int))
    hasPreviousPage := decide (1 < validPage)
    startIndex := if 0 < totalItems then startIndex + 1 else 0
    endIndex := min (startIndex + ps) totalItems }

end PaginationService

namespace TransactionService

/-- The aggregate statistics of the array backend. -/
structure AggregateStats where
  totalUnits : Int
  totalAmount : Rat
  totalDiscount : Rat
  recordCount : Nat
deriving DecidableEq

/-- JS `parseInt(q) || 0` on a number: truncation toward zero. -/
def jsParseInt (q : Rat) : Int :=
  if 0 ≤ q then q.floor else q.ceil

/-- JS `parseFloat(a || b) || 0` for two optional numbers: the first truthy
operand, else zero. -/
def jsOrQQ (a b : Option Rat) : Rat :=
  if truthyQ a then jsOrQ a 0 else if truthyQ b then jsOrQ b 0 else 0

/-- Model of `TransactionService.calculateAggregateStats`
(src/backend/src/utils/dataLoader.js bundle, lines 238-262).  Note the
discount of a record: `parseFloat(t.totalAmount || 0) - parseFloat(t.finalAmount || 0)`,
so a missing `finalAmount` is treated as zero. -/
def calculateAggregateStats (data : List Transaction) : AggregateStats :=
  if data.isEmpty then
    { totalUnits := 0, totalAmount := 0, totalDiscount := 0, recordCount := 0 }
  else
    { totalUnits := data.foldl (fun sum t => sum + jsParseInt t.quantity) 0
      totalAmount := data.foldl (fun sum t => sum + jsOrQQ t.totalAmount t.finalAmount) 0
      totalDiscount := data.foldl
        (fun sum t => sum + (jsOrQ t.totalAmount 0 - jsOrQ t.finalAmount 0)) 0
      recordCount := data.length }

/-- The full result of the array backend's `getTransactions`. -/
structure QueryResult where
  page : PaginationService.PageResult
  aggregateStats : AggregateStats
deriving DecidableEq

/-- Model of `TransactionService.getTransactions` (dataLoader.js bundle,
lines 190-231): search, filter, aggregate on the filtered set, sort,
paginate. -/
def getTransactions (data : List Transaction) (search : Option String)
    (filters : Option Filters) (sortBy sortOrder : String)
    (page pageSize : Option Int) : QueryResult :=
  let d1 := SearchService.searchTransactions data search
  let d2 := FilterService.applyFilters d1 filters
  let aggregateStats := calculateAggregateStats d2
  let d3 := SortService.sortTransactions d2 sortBy sortOrder
  let pr := PaginationService.paginate d3 page pageSize
  { page := pr, aggregateStats := aggregateStats }

/-- Model of `TransactionService.getFilterOptions` (dataLoader.js bundle,
lines 269-292): the search subset's options.  The `filters` parameter is
received, as in the source, but never applied. -/
def getFilterOptions (data : List Transaction) (search : Option String)
    (filters : Option Filters) : FilterService.FilterOptionsA :=
  let d := if truthyStr search then SearchService.searchTransactions data search else data
  FilterService.getFilterOptions d

end TransactionService

namespace TransactionServiceMongo

/-- Case-insensitive plain-text `$regex` match (`$options: 'i'`): the field
contains the term up to case. -/
def regexIMatch (field term : String) : Bool :=
  strContains (jsToLower field) (jsToLower term)

/-- The document predicate denoted by
`TransactionServiceMongo.buildFilterQuery`
(src/backend/src/services/transactionServiceMongo.js, lines 15-65).  Note the
source's asymmetries: an age minimum is applied only when `min > 0`, an age
maximum only when `max < 100`, and a date bound that fails to parse
(`none`) matches no document. -/
def buildFilterQuery (filters : Option Filters) (t : Transaction) : Bool :=
  match filters with
  | none => true
  | some f =>
    (match f.customerRegion with
      | some l => if l.isEmpty then true else l.contains t.customerRegion
      | none => true) &&
    (match f.gender with
      | some l => if l.isEmpty then true else l.contains t.gender
      | none => true) &&
    (match f.ageRange with
      | some r =>
        (match r.min with
          | some mn => if 0 < mn then mn ≤ t.age else true
          | none => true) &&
        (match r.max with
          | some mx => if mx < 100 then t.age ≤ mx else true
          | none => true)
      | none => true) &&
    (match f.productCategory with
      | some l => if l.isEmpty then true else l.contains t.productCategory
      | none => true) &&
    (match f.tags with
      | some l => if l.isEmpty then true else l.any fun tag => t.tags.contains tag
      | none => true) &&
    (match f.paymentMethod with
      | some l => if l.isEmpty then true else l.contains t.paymentMethod
      | none => true) &&
    (match f.dateRange with
      | some r =>
        (match r.start with
          | some sb => FilterService.tsGE t.date sb
          | none => true) &&
        (match r.endB with
          | some eb => FilterService.tsLE t.date eb
          | none => true)
      | none => true)

/-- The document predicate denoted by
`TransactionServiceMongo.buildSearchQuery` (lines 72-89): an empty or
whitespace-only term matches everything; otherwise a case-insensitive
substring match across five fields. -/
def buildSearchQuery (searchTerm : Option String) (t : Transaction) : Bool :=
  match searchTerm with
  | none => true
  | some s =>
    if s = "" then true
    else if jsTrim s = "" then true
    else
      let term := jsTrim s
      regexIMatch (jsOrStr t.customerName ("")) term ||
      regexIMatch (jsOrStr t.phoneNumber ("")) term ||
      regexIMatch t.customerId term ||
      regexIMatch t.productName term ||
      regexIMatch t.transactionId term

/-- The combined query both Mongo methods build: `$and` of filter and search
queries when the raw `search` is truthy, else the filter query alone. -/
def combinedQuery (search : Option String) (filters : Option Filters)
    (t : Transaction) : Bool :=
  if truthyStr search then buildFilterQuery filters t && buildSearchQuery search t
  else buildFilterQuery filters t

/-- The aggregate statistics of the Mongo backend (`$group` output). -/
structure MongoStats where
  totalUnits : Rat
  totalAmount : Rat
  totalDiscount : Rat
  recordCount : Nat
deriving DecidableEq

/-- Model of `Transaction.getAggregateStats`
(src/backend/src/models/Transaction.js, lines 108-140) over the documents
matching the given query.  `$sum` ignores a null summand, and
`$subtract: [totalAmount, finalAmount]` is null when either field is
missing, so such records contribute nothing to the corresponding sums. -/
def getAggregateStats (docs : List Transaction) (query : Transaction → Bool) :
    MongoStats :=
  let m := docs.filter query
  if m.isEmpty then
    { totalUnits := 0, totalAmount := 0, totalDiscount := 0, recordCount := 0 }
  else
    { totalUnits := m.foldl (fun sum t => sum + t.quantity) 0
      totalAmount := m.foldl (fun sum t => sum + t.totalAmount.getD 0) 0
      totalDiscount := m.foldl
        (fun sum t =>
          match t.totalAmount, t.finalAmount with
          | some a, some b => sum + (a - b)
          | _, _ => sum) 0
      recordCount := m.length }

/-- Per-field ordering used by the store's sort (`missing` sorts first,
matching Mongo's ordering of missing values before values). -/
def mongoCmp (sortBy : String) (a b : Transaction) : Ordering :=
  if sortBy = "date" then
    match a.date, b.date with
    | none, none => Ordering.eq
    | none, some _ => Ordering.lt
    | some _, none => Ordering.gt
    | some x, some y => compare x y
  else if sortBy = "quantity" then compare a.quantity b.quantity
  else if sortBy = "customerName" then
    strCmpB (jsOrStr a.customerName ("")) (jsOrStr b.customerName (""))
  else Ordering.eq

/-- Model of the store's `.sort(buildSortQuery(sortBy, sortOrder))`
(lines 97-101): ascending when `sortOrder` is `asc`, else descending.  The
store leaves the order of tied documents unspecified; it is modelled as
stable. -/
def mongoSort (docs : List Transaction) (sortBy sortOrder : String) :
    List Transaction :=
  if sortOrder = "asc" then
    sortListBy (fun a b => mongoCmp sortBy a b = Ordering.gt) docs
  else
    sortListBy (fun a b => mongoCmp sortBy a b = Ordering.lt) docs

/-- The result of the Mongo backend's `getTransactions`.  Its pagination
object has no `startIndex`/`endIndex`, unlike the array backend's. -/
structure MongoResult where
  items : List Transaction
  currentPage : Int
  pageSize : Int
  totalItems : Nat
  totalPages : Int
  hasNextPage : Bool
  hasPreviousPage : Bool
  aggregateStats : MongoStats
deriving DecidableEq

/-- `Math.ceil(n / ps)` for a natural `n` and integral `ps`; the division by
zero (which would be `Infinity` in JS) is left at zero, and is never
exercised by the theorems below. -/
def ceilDiv (n : Nat) (ps : Int) : Int :=
  if ps ≤ 0 then 0 else ((n : Int) + ps - 1) / ps

/-- Model of `TransactionServiceMongo.getTransactions` (lines 108-177):
aggregate over the combined query, then a skip/limit page of the sorted
matching documents.  The requested `page` is used as-is: there is no
clamping, `skip = (page - 1) * pageSize` runs past the data for an
out-of-range page, and `currentPage` echoes the request. -/
def getTransactions (docs : List Transaction) (search : Option String)
    (filters : Option Filters) (sortBy sortOrder : String)
    (page pageSize : Int) : MongoResult :=
  let query := combinedQuery search filters
  let aggregateStats := getAggregateStats docs query
  let totalItems := aggregateStats.recordCount
  let totalPages := ceilDiv totalItems pageSize
  let skip := (page - 1) * pageSize
  let items := ((mongoSort (docs.filter query) sortBy sortOrder).drop skip.toNat).take
    pageSize.toNat
  { items := items
    currentPage := page
    pageSize := pageSize
    totalItems := totalItems
    totalPages := totalPages
    hasNextPage := decide (page < totalPages)
    hasPreviousPage := decide (1 < page)
    aggregateStats := aggregateStats }

/-- The Mongo backend's filter options (keyed as in the source). -/
structure FilterOptionsM where
  customerRegion : List String
  gender : List String
  productCategory : List String
  tags : List String
  paymentMethod : List String
  ageMin : Rat
  ageMax : Rat
deriving DecidableEq

/-- `Transaction.distinct(field, query)`: the distinct values of a field over
the matching documents. -/
def distinctField (docs : List Transaction) (query : Transaction → Bool)
    (field : Transaction → String) : List String :=
  ((docs.filter query).map field).dedup

/-- Model of `TransactionServiceMongo.getFilterOptions` (lines 184-232):
distinct non-empty values of each filterable field, and the observed age
range, over the documents matching search plus filters. -/
def getFilterOptions (docs : List Transaction) (search : Option String)
    (filters : Option Filters) : FilterOptionsM :=
  let query := combinedQuery search filters
  let m := docs.filter query
  let ages :=
    match m with
    | [] => none
    | t :: ts => some (ts.foldl (fun (a : Rat) (r : Transaction) => min a r.age) t.age,
                       ts.foldl (fun (a : Rat) (r : Transaction) => max a r.age) t.age)
  { customerRegion := (distinctField docs query fun t => t.customerRegion).filter (· ≠ "")
    gender := (distinctField docs query fun t => t.gender).filter (· ≠ "")
    productCategory := (distinctField docs query fun t => t.productCategory).filter (· ≠ "")
    tags := ((m.flatMap fun t => t.tags).dedup).filter (· ≠ "")
    paymentMethod := (distinctField docs query fun t => t.paymentMethod).filter (· ≠ "")
    ageMin := match ages with
      | none => 0
      | some (mn, _) => jsOrQ (some mn) 0
    ageMax := match ages with
      | none => 100
      | some (_, mx) => jsOrQ (some mx) 100 }

end TransactionServiceMongo

namespace Validators

/-- Result shape of the validators: a validity flag and the collected error
messages. -/
structure ValidationResult where
  isValid : Bool
  errors : List String
deriving DecidableEq

/-- Model of `validatePagination` (src/backend/src/services/filterService.js
bundle, lines 259-280).  The outer `Option` is presence of the query
parameter, the inner is the `parseInt` result (`none` for `NaN`).  Both
parameters are checked and the error messages accumulated. -/
def validatePagination (page pageSize : Option (Option Int)) : ValidationResult :=
  let e1 : List String :=
    match page with
    | none => []
    | some none => ["Page number must be a positive integer"]
    | some (some n) => if n < 1 then ["Page number must be a positive integer"] else []
  let e2 : List String :=
    match pageSize with
    | none => []
    | some none => ["Page size must be between 1 and 100"]
    | some (some n) => if n < 1 || 100 < n then ["Page size must be between 1 and 100"] else []
  let errors := e1 ++ e2
  { isValid := errors.isEmpty, errors := errors }

/-- Model of `validateSort` (same bundle, lines 288-305): a present,
truthy, unsupported `sortBy` or `sortOrder` is an error. -/
def validateSort (sortBy sortOrder : Option String) : ValidationResult :=
  let e1 : List String :=
    match sortBy with
    | none => []
    | some s =>
      if s ≠ "" && !(SortService.validSortFields.contains s) then
        ["Invalid sortBy field. Must be one of: date, quantity, customerName"]
      else []
  let e2 : List String :=
    match sortOrder with
    | none => []
    | some s =>
      if s ≠ "" && !(["asc", "desc"].contains s) then
        ["Invalid sortOrder. Must be one of: asc, desc"]
      else []
  let errors := e1 ++ e2
  { isValid := errors.isEmpty, errors := errors }

/-- Model of `validateFilters` (same bundle, lines 312-349): age-range
consistency and date-range parsability, in the source's message order.  A
date bound is compared only when both bounds parse, as `NaN` comparisons are
false. -/
def validateFilters (f : Filters) : ValidationResult :=
  let eAge : List String :=
    match f.ageRange with
    | none => []
    | some r =>
      (match r.min, r.max with
        | some mn, some mx => if mx < mn then ["Age range min cannot be greater than max"] else []
        | _, _ => []) ++
      (match r.min with
        | some mn => if mn < 0 then ["Age range min must be a non-negative number"] else []
        | none => []) ++
      (match r.max with
        | some mx => if mx < 0 then ["Age range max must be a non-negative number"] else []
        | none => [])
  let eDate : List String :=
    match f.dateRange with
    | none => []
    | some r =>
      match r.start, r.endB with
      | some sb, some eb =>
        (if sb.isNone then ["Invalid start date format"] else []) ++
        (if eb.isNone then ["Invalid end date format"] else []) ++
        (match sb, eb with
          | some s, some e => if e < s then ["Start date cannot be after end date"] else []
          | _, _ => [])
      | _, _ => []
  let errors := eAge ++ eDate
  { isValid := errors.isEmpty, errors := errors }

end Validators

namespace Middleware

/-- The `filters` query parameter as the middleware sees it: absent, present
but not valid JSON, or parsed into a filter object. -/
inductive FilterParam where
  | absent
  | badJson
  | parsed (f : Filters)
deriving DecidableEq

/-- A thrown `ValidationError`: its message and its list of specific
violations. -/
structure VError where
  message : String
  errors : List String
deriving DecidableEq

/-- Model of `validateTransactionQuery`
(src/backend/src/middleware/validationMiddleware.js, lines 7-43): pagination
is validated first and, on failure, throws at once; only then sort; only then
filters. -/
def validateTransactionQuery (page pageSize : Option (Option Int))
    (sortBy sortOrder : Option String) (filters : FilterParam) :
    Except VError Unit :=
  let pv := Validators.validatePagination page pageSize
  if !pv.isValid then
    Except.error { message := "Invalid pagination parameters", errors := pv.errors }
  else
    let sv := Validators.validateSort sortBy sortOrder
    if !sv.isValid then
      Except.error { message := "Invalid sort parameters", errors := sv.errors }
    else
      match filters with
      | FilterParam.absent => Except.ok ()
      | FilterParam.badJson =>
        Except.error { message := "Invalid filter format. Must be valid JSON", errors := [] }
      | FilterParam.parsed f =>
        let fv := Validators.validateFilters f
        if !fv.isValid then
          Except.error { message := "Invalid filter parameters", errors := fv.errors }
        else Except.ok ()

end Middleware

namespace DataLoader

/-- The raw date cell of a CSV row: falsy (missing), a string `new Date`
cannot parse, or a string parsing to a timestamp. -/
inductive RawDate where
  | missing
  | unparsable (s : String)
  | parsed (t : Int)
deriving DecidableEq

/-- Model of `DataLoader.parseDate` (src/backend/src/utils/dataLoader.js,
lines 136-148), with the wall clock at the moment of the call passed
explicitly as `now`: a falsy or unparsable date string is replaced by the
CURRENT time, not by a fixed sentinel. -/
def parseDate (now : Int) : RawDate → Int
  | RawDate.missing => now
  | RawDate.unparsable _ => now
  | RawDate.parsed t => t

/-- The date-relevant slice of `DataLoader.parseTransaction` (lines 66-101):
a loaded record carries `parseDate` of its raw date cell; the customer id
identifies the row. -/
def parseRow (now : Int) (id : String) (rawDate : RawDate) : Transaction :=
  { defaultTxn with customerId := id, date := some (parseDate now rawDate) }

/-- One load-then-sort run: parse all rows at clock `now`, then sort by date
ascending through `SortService.sortTransactions`. -/
def loadThenSortByDate (now : Int) (rows : List (String × RawDate)) :
    List Transaction :=
  SortService.sortTransactions (rows.map fun r => parseRow now r.1 r.2) ("date") ("asc")

end DataLoader

/-- A JS array value together with its object identity, to state aliasing
properties: two arrays with distinct `ident` are distinct objects. -/
structure JsArray (α : Type) where
  ident : Nat
  data : List α
deriving DecidableEq

namespace SortService

/-- Model of `SortService.sortTransactions` at the level of array objects.
`fresh` is the identity of the array a `[...data]` copy would allocate; the
first component is the returned array and the second is the caller's array
after the call.  On the empty or unsupported-field paths the INPUT array
itself is returned; on the sorting path the copy is sorted in place and
returned, so the input is never mutated. -/
def sortTransactionsArr (arr : JsArray Transaction) (sortBy sortOrder : String)
    (fresh : Nat) : JsArray Transaction × JsArray Transaction :=
  if arr.data.isEmpty then (arr, arr)
  else if !(validSortFields.contains sortBy) then (arr, arr)
  else ({ ident := fresh, data := sortTransactions arr.data sortBy sortOrder }, arr)

end SortService

/-- What the spec's filter contract asks of a record kept by `applyFilters`:
membership for each present non-empty multi-select criterion, a common tag
for a present non-empty tag criterion, and inclusive bounds for present age
and date ranges (on parsed timestamps). -/
def satisfiesFilters (f : Filters) (t : Transaction) : Prop :=
  (∀ l, f.customerRegion = some l → l ≠ [] → t.customerRegion ∈ l) ∧
  (∀ l, f.gender = some l → l ≠ [] → t.gender ∈ l) ∧
  (∀ r, f.ageRange = some r →
    (∀ mn, r.min = some mn → mn ≤ t.age) ∧ (∀ mx, r.max = some mx → t.age ≤ mx)) ∧
  (∀ l, f.productCategory = some l → l ≠ [] → t.productCategory ∈ l) ∧
  (∀ l, f.tags = some l → l ≠ [] → ∃ tag, tag ∈ l ∧ tag ∈ t.tags) ∧
  (∀ l, f.paymentMethod = some l → l ≠ [] → t.paymentMethod ∈ l) ∧
  (∀ r, f.dateRange = some r →
    (∀ sb, r.start = some sb → FilterService.tsGE t.date sb = true) ∧
    (∀ eb, r.endB = some eb → FilterService.tsLE t.date eb = true))

/-- The record of the backend-divergence run: one ordinary transaction. -/
def c1rec : Transaction :=
  { defaultTxn with
    transactionId := "T1", customerId := "C1", customerName := some ("John Doe"),
    quantity := 2, totalAmount := some 100, finalAmount := some 90, date := some 1000 }

/-- A record with a `totalAmount` but no `finalAmount`. -/
def c2rec : Transaction :=
  { defaultTxn with transactionId := "T2", totalAmount := some 100, finalAmount := none }

/-- A second record without `finalAmount`, for the all-missing aggregate. -/
def c2recB : Transaction :=
  { defaultTxn with transactionId := "T3", totalAmount := some 40, finalAmount := none }

/-- Five records, giving three pages at page size 2. -/
def c3data : List Transaction :=
  [{ defaultTxn with transactionId := "A" }, { defaultTxn with transactionId := "B" },
   { defaultTxn with transactionId := "C" }, { defaultTxn with transactionId := "D" },
   { defaultTxn with transactionId := "E" }]

/-- A record in region North. -/
def c4north : Transaction :=
  { defaultTxn with customerId := "N", customerRegion := "North" }

/-- A record in region South. -/
def c4south : Transaction :=
  { defaultTxn with customerId := "S", customerRegion := "South" }

/-- A filter selecting only region North. -/
def c4filters : Filters :=
  { Filters.empty with customerRegion := some ["North"] }

/-- Two rows for the load-then-sort runs: one with an unparsable date, one
with the timestamp 5. -/
def c6rows : List (String × DataLoader.RawDate) :=
  [("A", DataLoader.RawDate.unparsable ("garbage")), ("B", DataLoader.RawDate.parsed 5)]

/-- A record for the search witness. -/
def c7alice : Transaction :=
  { defaultTxn with customerName := some ("Alice Johnson"), phoneNumber := some ("555-1234") }

/-- Records for the search witness. -/
def c7data : List Transaction :=
  [c7alice, { defaultTxn with customerName := some ("Bob Smith") }]

/-- A record kept by the filter-closure witness criteria. -/
def c8w1 : Transaction :=
  { defaultTxn with customerId := "W1", customerRegion := "North", gender := "Male", age := 35 }

/-- Records for the filter-closure witness. -/
def c8data : List Transaction :=
  [c8w1,
   { defaultTxn with customerId := "W2", customerRegion := "South", gender := "Female", age := 28 }]

/-- Criteria for the filter-closure witness: region North and age 30 to 40. -/
def c8f : Filters :=
  { Filters.empty with
    customerRegion := some ["North"]
    ageRange := some { min := some 30, max := some 40 } }

/-- A one-element array object with identity 0. -/
def c10arr : JsArray Transaction :=
  { ident := 0, data := [defaultTxn] }

/-- Decidable equality for `Except`, for evaluating middleware results. -/
instance {e a : Type} [DecidableEq e] [DecidableEq a] : DecidableEq (Except e a) := fun x y =>
  match x, y with
  | Except.ok u, Except.ok v =>
    if h : u = v then isTrue (by rw [h]) else isFalse (fun hh => h (by injection hh))
  | Except.error u, Except.error v =>
    if h : u = v then isTrue (by rw [h]) else isFalse (fun hh => h (by injection hh))
  | Except.ok _, Except.error _ => isFalse (fun hh => by injection hh)
  | Except.error _, Except.ok _ => isFalse (fun hh => by injection hh)

/-!  Theorems.  Shared helper lemmas come first, claim theorems follow. -/

/-- Sum of a mapped function equals the JS reduce fold. -/
theorem foldl_add_map_sum {α : Type} (g : α → Rat) (l : List α) (a : Rat) :
    l.foldl (fun sum t => sum + g t) a = a + (l.map g).sum := by
  induction l generalizing a with
  | nil => simp
  | cons x xs ih => simp [ih, add_assoc]

/-- A fold that skips every element of a list whose `finalAmount` is missing
leaves its accumulator unchanged. -/
theorem foldl_discount_none (l : List Transaction) (a : Rat)
    (h : ∀ t ∈ l, t.finalAmount = none) :
    l.foldl
      (fun sum t =>
        match t.totalAmount, t.finalAmount with
        | some x, some y => sum + (x - y)
        | _, _ => sum) a = a := by
  induction l generalizing a with
  | nil => rfl
  | cons x xs ih =>
    have hx : x.finalAmount = none := h x (by simp)
    have hxs : ∀ t ∈ xs, t.finalAmount = none := fun t ht => h t (by simp [ht])
    cases hta : x.totalAmount <;> simp [List.foldl_cons, hx, hta, ih _ hxs]

/-- C1: the claim that for every fixed dataset and request the array backend
(`TransactionService.getTransactions`) and the indexed backend
(`TransactionServiceMongo.getTransactions`) return the same items, stats and
pagination FAILS: for a one-record dataset and the request
`{page: 2, pageSize: 10}` the array backend clamps the page and returns the
record at `currentPage = 1`, while the Mongo backend skips past the data and
returns no items at `currentPage = 2`. -/
theorem c1_backends_diverge_on_page_overflow :
    (TransactionService.getTransactions [c1rec] (some ("")) none ("date") ("desc")
        (some 2) (some 10)).page.items = [c1rec]
  ∧ (TransactionService.getTransactions [c1rec] (some ("")) none ("date") ("desc")
        (some 2) (some 10)).page.currentPage = 1
  ∧ (TransactionService.getTransactions [c1rec] (some ("")) none ("date") ("desc")
        (some 2) (some 10)).page.totalItems = 1
  ∧ (TransactionServiceMongo.getTransactions [c1rec] (some ("")) none ("date") ("desc")
        2 10).items = []
  ∧ (TransactionServiceMongo.getTransactions [c1rec] (some ("")) none ("date") ("desc")
        2 10).currentPage = 2
  ∧ (TransactionServiceMongo.getTransactions [c1rec] (some ("")) none ("date") ("desc")
        2 10).totalItems = 1
  ∧ [c1rec] ≠ ([] : List Transaction) := by
  decide

/-- C2 counterexample: a record with `totalAmount = 100` and no `finalAmount`
contributes its full `totalAmount` to `totalDiscount`, not 0, so the claim
that such a record contributes 0 is false. -/
theorem c2_missing_final_contributes_total :
    (TransactionService.calculateAggregateStats [c2rec]).totalDiscount = 100
  ∧ (TransactionService.calculateAggregateStats [c2rec]).totalDiscount ≠ 0 := by
  norm_num [TransactionService.calculateAggregateStats, c2rec, defaultTxn, jsOrQ]

/-- C2 amended: in the array backend a record with a missing `finalAmount`
contributes its full truthy `totalAmount` (missing `finalAmount` is treated
as 0), so a set whose records all lack `finalAmount` has
`totalDiscount = sum of the totalAmounts`; in the Mongo aggregation of
`Transaction.getAggregateStats` such records contribute nothing, so there the
all-missing total is 0. -/
theorem c2_all_missing_final_discount (data : List Transaction)
    (h : ∀ t ∈ data, t.finalAmount = none) :
    (TransactionService.calculateAggregateStats data).totalDiscount
      = (data.map fun t => jsOrQ t.totalAmount 0).sum
  ∧ (TransactionServiceMongo.getAggregateStats data (fun _ => true)).totalDiscount = 0 := by
  constructor
  · by_cases hd : data.isEmpty
    · rw [List.isEmpty_iff] at hd
      simp [hd, TransactionService.calculateAggregateStats]
    · simp only [TransactionService.calculateAggregateStats, hd, Bool.false_eq_true,
        if_false]
      have : ∀ t ∈ data,
          jsOrQ t.totalAmount 0 - jsOrQ t.finalAmount 0 = jsOrQ t.totalAmount 0 := by
        intro t ht
        simp [h t ht, jsOrQ]
      calc data.foldl (fun sum t => sum + (jsOrQ t.totalAmount 0 - jsOrQ t.finalAmount 0)) 0
          = 0 + (data.map fun t => jsOrQ t.totalAmount 0 - jsOrQ t.finalAmount 0).sum :=
            foldl_add_map_sum _ data 0
        _ = (data.map fun t => jsOrQ t.totalAmount 0).sum := by
            rw [zero_add, List.map_congr_left this]
  · simp only [TransactionServiceMongo.getAggregateStats, List.filter_true]
    by_cases hd : data.isEmpty
    · simp [hd]
    · simp only [hd, Bool.false_eq_true, if_false]
      exact foldl_discount_none data 0 h

/-- C2 witness: the amended statement at a concrete two-record all-missing
dataset. -/
theorem c2_all_missing_final_discount_witness :
    (TransactionService.calculateAggregateStats [c2rec, c2recB]).totalDiscount
      = ([c2rec, c2recB].map fun t => jsOrQ t.totalAmount 0).sum
  ∧ (TransactionServiceMongo.getAggregateStats [c2rec, c2recB] (fun _ => true)).totalDiscount
      = 0 :=
  c2_all_missing_final_discount [c2rec, c2recB] (by decide)

/-- C6: the claim that an unparsable date is replaced by a fixed sentinel, so
that loading then sorting by date is deterministic across runs, FAILS: the
source substitutes the current clock, and the same two rows loaded at clock 0
and at clock 10 sort into different orders. -/
theorem c6_unparsable_date_order_depends_on_clock :
    ((DataLoader.loadThenSortByDate 0 c6rows).map fun t => t.customerId) = ["A", "B"]
  ∧ ((DataLoader.loadThenSortByDate 10 c6rows).map fun t => t.customerId) = ["B", "A"]
  ∧ (["A", "B"] : List String) ≠ ["B", "A"]
  ∧ DataLoader.parseDate 0 (DataLoader.RawDate.unparsable ("garbage")) = 0
  ∧ DataLoader.parseDate 10 (DataLoader.RawDate.unparsable ("garbage")) = 10 := by
  decide

/-- C10 counterexample: the claim that `sortTransactions` always returns a
new array fails for an unsupported `sortBy`: on a non-empty input with the
fresh identity 1 on offer, the function returns the INPUT array object
itself (identity 0), not a new array. -/
theorem c10_unsupported_field_returns_input_array :
    c10arr.data ≠ []
  ∧ (SortService.sortTransactionsArr c10arr ("totalAmount") ("asc") 1).1 = c10arr
  ∧ c10arr.ident ≠ 1 := by
  decide

/-- C10 amended: `sortTransactions` never mutates its input array, and for a
non-empty input with a SUPPORTED sort field it returns a new array (the
`[...data]` copy) holding the sorted records; for an unsupported field it
returns the input array object itself, still unmodified. -/
theorem c10_sort_frame (arr : JsArray Transaction) (sortBy sortOrder : String)
    (fresh : Nat) :
    (SortService.sortTransactionsArr arr sortBy sortOrder fresh).2 = arr
  ∧ (arr.data ≠ [] → SortService.validSortFields.contains sortBy = true →
      (SortService.sortTransactionsArr arr sortBy sortOrder fresh).1
        = { ident := fresh,
            data := SortService.sortTransactions arr.data sortBy sortOrder })
  ∧ (SortService.validSortFields.contains sortBy = false →
      (SortService.sortTransactionsArr arr sortBy sortOrder fresh).1 = arr) := by
  refine ⟨?_, ?_, ?_⟩
  · unfold SortService.sortTransactionsArr
    split <;> [rfl; skip]
    split <;> rfl
  · intro hne hsb
    have he : arr.data.isEmpty = false := by
      cases h : arr.data with
      | nil => exact absurd h hne
      | cons x xs => rfl
    have hmem : sortBy ∈ SortService.validSortFields := by
      simpa using hsb
    simp [SortService.sortTransactionsArr, he, hmem]
  · intro hsb
    have hmem : sortBy ∉ SortService.validSortFields := by
      simpa using hsb
    unfold SortService.sortTransactionsArr
    split
    · rfl
    · simp [hmem]

/-- C10 witness: the amended statement at a concrete non-empty array, a
supported field, and the fresh identity 5. -/
theorem c10_sort_frame_witness :
    (SortService.sortTransactionsArr c10arr ("date") ("asc") 5).2 = c10arr
  ∧ (SortService.sortTransactionsArr c10arr ("date") ("asc") 5).1
      = { ident := 5, data := SortService.sortTransactions c10arr.data ("date") ("asc") } :=
  ⟨(c10_sort_frame c10arr "date" "asc" 5).1,
   (c10_sort_frame c10arr "date" "asc" 5).2.1 (by decide) (by decide)⟩

/-- C4 counterexample: with no search term and a filter selecting region
North, the array backend's filter-options operation still lists region South,
whereas the options over the Search+Filter subset (what the claim
prescribes) list only North: the filter stage is not applied. -/
theorem c4_filter_options_ignore_filters :
    (TransactionService.getFilterOptions [c4north, c4south] none (some c4filters)).regions
      = ["North", "South"]
  ∧ (FilterService.getFilterOptions
        (FilterService.applyFilters
          (SearchService.searchTransactions [c4north, c4south] none)
          (some c4filters))).regions
      = ["North"]
  ∧ (["North", "South"] : List String) ≠ ["North"] := by
  decide

/-- The search stage is the identity on a falsy term. -/
theorem searchTransactions_falsy (data : List Transaction) (search : Option String)
    (h : truthyStr search = false) :
    SearchService.searchTransactions data search = data := by
  cases search with
  | none => rfl
  | some s =>
    have : s = "" := by simpa [truthyStr] using h
    simp [SearchService.searchTransactions, this]

/-- C4 amended: the array backend's filter-options operation computes its
distinct values over the subset produced by the Search stage alone — the
filter set is ignored, so the result is independent of it — while the
indexed backend's filter-options draws its distinct values (here the
customer-region field) from the subset matching both the Search and the
Filter stages. -/
theorem c4_filter_options_search_only (data : List Transaction)
    (search : Option String) (f g : Option Filters) :
    TransactionService.getFilterOptions data search f
      = TransactionService.getFilterOptions data search g
  ∧ TransactionService.getFilterOptions data search f
      = FilterService.getFilterOptions (SearchService.searchTransactions data search)
  ∧ ∀ v : String,
      v ∈ (TransactionServiceMongo.getFilterOptions data search f).customerRegion ↔
        (v ≠ "" ∧ ∃ t, t ∈ data ∧ TransactionServiceMongo.combinedQuery search f t = true
          ∧ t.customerRegion = v) := by
  refine ⟨rfl, ?_, ?_⟩
  · unfold TransactionService.getFilterOptions
    by_cases h : truthyStr search = true
    · simp [h]
    · have h' : truthyStr search = false := by simpa using h
      rw [searchTransactions_falsy data search h', if_neg]
      simp [h']
  · intro v
    simp only [TransactionServiceMongo.getFilterOptions,
      TransactionServiceMongo.distinctField, List.mem_filter, List.mem_dedup,
      List.mem_map, List.mem_filter, decide_eq_true_eq]
    constructor
    · rintro ⟨⟨t, ⟨ht, hq⟩, hv⟩, hne⟩
      exact ⟨hne, t, ht, hq, hv⟩
    · rintro ⟨hne, t, ht, hq, hv⟩
      exact ⟨⟨t, ⟨ht, hq⟩, hv⟩, hne⟩

/-- C5 counterexample: a request with an out-of-range `pageSize` AND an
unsupported `sortBy` is rejected with only the pagination violation; the
sort violation, though present, is not reported, so "all violations at
once" fails across categories. -/
theorem c5_reports_first_category_only :
    Middleware.validateTransactionQuery none (some (some 200)) (some ("bogus")) none
        Middleware.FilterParam.absent
      = Except.error { message := "Invalid pagination parameters",
                       errors := ["Page size must be between 1 and 100"] }
  ∧ (Validators.validateSort (some ("bogus")) none).isValid = false := by
  decide

/-- C5 amended: validation rejects the request before the pipeline runs and
collects every violation WITHIN the failing category (both pagination
parameters are checked and their messages concatenated), but categories are
checked in order — pagination, then sort — and the first failing category's
errors are returned alone, regardless of later categories. -/
theorem c5_category_validation (page pageSize : Option (Option Int))
    (sortBy sortOrder : Option String) (filters : Middleware.FilterParam) :
    ((Validators.validatePagination page pageSize).isValid = false →
      Middleware.validateTransactionQuery page pageSize sortBy sortOrder filters
        = Except.error { message := "Invalid pagination parameters",
                         errors := (Validators.validatePagination page pageSize).errors })
  ∧ ((Validators.validatePagination page pageSize).isValid = true →
     (Validators.validateSort sortBy sortOrder).isValid = false →
      Middleware.validateTransactionQuery page pageSize sortBy sortOrder filters
        = Except.error { message := "Invalid sort parameters",
                         errors := (Validators.validateSort sortBy sortOrder).errors })
  ∧ (Validators.validatePagination page pageSize).errors
      = (Validators.validatePagination page none).errors
        ++ (Validators.validatePagination none pageSize).errors := by
  refine ⟨?_, ?_, ?_⟩
  · intro h
    simp [Middleware.validateTransactionQuery, h]
  · intro h1 h2
    simp [Middleware.validateTransactionQuery, h1, h2]
  · simp [Validators.validatePagination]

/-- C5 witness: both pagination violations of a concrete bad request are
reported together, ahead of its sort violation. -/
theorem c5_category_validation_witness :
    Middleware.validateTransactionQuery (some (some 0)) (some (some 200)) (some ("nope"))
        none Middleware.FilterParam.absent
      = Except.error { message := "Invalid pagination parameters",
                       errors := ["Page number must be a positive integer",
                                  "Page size must be between 1 and 100"] } := by
  have h := (c5_category_validation (some (some 0)) (some (some 200)) (some ("nope"))
    none Middleware.FilterParam.absent).1 (by decide)
  rw [h]
  decide

/-- C7: the search contract.  A null/undefined/non-string term (`none`) and a
term that is empty after normalization are the identity; otherwise exactly
the records whose lower-cased `customerName` or raw `phoneNumber` contains
the normalized term are kept, and a record missing both fields (treated as
empty strings) is never kept. -/
theorem c7_search_contract (data : List Transaction) (s : String) :
    SearchService.searchTransactions data none = data
  ∧ (jsTrim (jsToLower s) = "" → SearchService.searchTransactions data (some s) = data)
  ∧ (jsTrim (jsToLower s) ≠ "" →
      ∀ t, t ∈ SearchService.searchTransactions data (some s) ↔
        (t ∈ data ∧
          (strContains (jsToLower (jsOrStr t.customerName (""))) (jsTrim (jsToLower s))
            || strContains (jsOrStr t.phoneNumber ("")) (jsTrim (jsToLower s))) = true))
  ∧ (jsTrim (jsToLower s) ≠ "" →
      ∀ t ∈ data, t.customerName = none → t.phoneNumber = none →
        t ∉ SearchService.searchTransactions data (some s)) := by
  have hsne : jsTrim (jsToLower s) ≠ "" → s ≠ "" := by
    intro h hs
    exact h (by simp [hs, jsToLower, jsTrim])
  refine ⟨rfl, ?_, ?_, ?_⟩
  · intro h
    by_cases hs : s = ""
    · simp [SearchService.searchTransactions, hs]
    · simp [SearchService.searchTransactions, hs, h]
  · intro h t
    have hs := hsne h
    simp [SearchService.searchTransactions, hs, h, List.mem_filter,
      SearchService.searchMatches]
  · intro h t ht hn hp hmem
    have hs := hsne h
    have hdata : (jsTrim (jsToLower s)).data ≠ [] := by
      intro hd
      exact h (congrArg String.mk hd)
    simp [SearchService.searchTransactions, hs, h, List.mem_filter] at hmem
    rcases hmem with ⟨-, hmatch⟩
    simp only [jsToLower] at hdata
    simp [SearchService.searchMatches, hn, hp, jsOrStr, jsToLower, strContains,
      hasSubstr, List.isEmpty_iff, hdata] at hmatch

/-- C7 witness: the whitespace-only identity and a positive match at concrete
inputs. -/
theorem c7_search_contract_witness :
    SearchService.searchTransactions c7data (some ("   ")) = c7data
  ∧ c7alice ∈ SearchService.searchTransactions c7data (some ("alice")) := by
  refine ⟨(c7_search_contract c7data ("   ")).2.1 (by decide), ?_⟩
  exact ((c7_search_contract c7data ("alice")).2.2.1 (by decide) c7alice).mpr (by decide)

/-- The normalized page size is at least one. -/
theorem one_le_pageSize (pageSize : Option Int) :
    1 ≤ (PaginationService.validatePageSize pageSize).toNat := by
  cases pageSize with
  | none => decide
  | some n =>
    simp only [PaginationService.validatePageSize]
    by_cases h : n < 1
    · simp [h]
    · have h1 : (1 : Int) ≤ n := by omega
      rcases min_cases n 100 with ⟨he, -⟩ | ⟨he, -⟩ <;> simp [h, he] <;> omega

/-- `totalPages || 1` equals `max totalPages 1`. -/
theorem ifZero_eq_max (tp : Nat) :
    (if tp = 0 then (1 : Int) else (tp : Int)) = max (tp : Int) 1 := by
  rcases Nat.eq_zero_or_pos tp with h | h
  · simp [h]
  · have h0 : tp ≠ 0 := Nat.pos_iff_ne_zero.mp h
    have h1 : (1 : Int) ≤ (tp : Int) := by exact_mod_cast h
    simp [h0, max_eq_left h1]

/-- The page slice of `paginate`, expressed through its clamped page. -/
theorem paginate_items_eq (data : List Transaction) (page pageSize : Option Int) :
    (PaginationService.paginate data page pageSize).items
      = (data.drop (((PaginationService.paginate data page pageSize).currentPage - 1).toNat
          * (PaginationService.validatePageSize pageSize).toNat)).take
        (PaginationService.validatePageSize pageSize).toNat := rfl

/-- The page count of `paginate` as a ceiling division. -/
theorem paginate_totalPages_eq (data : List Transaction) (page pageSize : Option Int) :
    (PaginationService.paginate data page pageSize).totalPages
      = (data.length + (PaginationService.validatePageSize pageSize).toNat - 1)
        / (PaginationService.validatePageSize pageSize).toNat := rfl

/-- The clamping law of `paginate`. -/
theorem paginate_currentPage_eq (data : List Transaction) (page pageSize : Option Int) :
    (PaginationService.paginate data page pageSize).currentPage
      = max 1 (min (PaginationService.validatePage page)
          (max ((PaginationService.paginate data page pageSize).totalPages : Int) 1)) := by
  simp only [PaginationService.paginate, ifZero_eq_max]

/-- C3: `paginate` normalizes a non-numeric (`none`) or sub-1 page to 1 and a
non-numeric or sub-1 page size to 10 capped at 100, then clamps the page
into `[1, max(totalPages, 1)]`; in particular a request for page 999 against
a 3-page result returns the (non-empty) last page, identical to requesting
page 3, rather than an error or an empty page. -/
theorem c3_paginate_normalizes_and_clamps (data : List Transaction)
    (page pageSize : Option Int) :
    PaginationService.validatePage none = 1
  ∧ (∀ p : Int, p < 1 → PaginationService.validatePage (some p) = 1)
  ∧ PaginationService.validatePageSize none = 10
  ∧ (∀ n : Int, n < 1 → PaginationService.validatePageSize (some n) = 10)
  ∧ (∀ n : Int, 1 ≤ n → PaginationService.validatePageSize (some n) = min n 100)
  ∧ (PaginationService.paginate data page pageSize).currentPage
      = max 1 (min (PaginationService.validatePage page)
          (max ((PaginationService.paginate data page pageSize).totalPages : Int) 1))
  ∧ ((PaginationService.paginate data (some 999) pageSize).totalPages = 3 →
        (PaginationService.paginate data (some 999) pageSize).currentPage = 3
      ∧ (PaginationService.paginate data (some 999) pageSize).items
          = (PaginationService.paginate data (some 3) pageSize).items
      ∧ (PaginationService.paginate data (some 999) pageSize).items ≠ []) := by
  refine ⟨rfl, ?_, rfl, ?_, ?_, ?_, ?_⟩
  · intro p hp
    simp [PaginationService.validatePage, hp]
  · intro n hn
    simp [PaginationService.validatePageSize, hn]
  · intro n hn
    have h : ¬ n < 1 := by omega
    simp [PaginationService.validatePageSize, h]
  · exact paginate_currentPage_eq data page pageSize
  · intro h3
    have hps := one_le_pageSize pageSize
    have hps0 : 0 < (PaginationService.validatePageSize pageSize).toNat := hps
    have hlen : 2 * (PaginationService.validatePageSize pageSize).toNat + 1 ≤ data.length := by
      rw [paginate_totalPages_eq] at h3
      have h3' : 3 ≤ (data.length + (PaginationService.validatePageSize pageSize).toNat - 1)
          / (PaginationService.validatePageSize pageSize).toNat := h3.ge
      have := (Nat.le_div_iff_mul_le hps0).mp h3'
      omega
    have htp3 : (PaginationService.paginate data (some 3) pageSize).totalPages = 3 := by
      rw [paginate_totalPages_eq] at h3 ⊢
      exact h3
    have hcp : (PaginationService.paginate data (some 999) pageSize).currentPage = 3 := by
      rw [paginate_currentPage_eq, h3]
      norm_num [PaginationService.validatePage]
    have hcp3 : (PaginationService.paginate data (some 3) pageSize).currentPage = 3 := by
      rw [paginate_currentPage_eq, htp3]
      norm_num [PaginationService.validatePage]
    refine ⟨hcp, ?_, ?_⟩
    · rw [paginate_items_eq, paginate_items_eq, hcp, hcp3]
    · rw [paginate_items_eq, hcp]
      have hlt : ((data.drop (((3 : Int) - 1).toNat
          * (PaginationService.validatePageSize pageSize).toNat)).take
            (PaginationService.validatePageSize pageSize).toNat).length ≠ 0 := by
        rw [List.length_take, List.length_drop]
        have : ((3 : Int) - 1).toNat = 2 := rfl
        rw [this]
        omega
      intro hnil
      rw [hnil] at hlt
      exact hlt rfl

/-- C3 witness: page 999 against the 3-page result of 5 records at page size
2 clamps to page 3 and returns a non-empty last page; page 0 and page size
500 normalize as stated. -/
theorem c3_paginate_normalizes_and_clamps_witness :
    (PaginationService.paginate c3data (some 999) (some 2)).currentPage = 3
  ∧ (PaginationService.paginate c3data (some 999) (some 2)).items
      = (PaginationService.paginate c3data (some 3) (some 2)).items
  ∧ (PaginationService.paginate c3data (some 999) (some 2)).items ≠ []
  ∧ PaginationService.validatePage (some 0) = 1
  ∧ PaginationService.validatePageSize (some 500) = min 500 100 := by
  obtain ⟨-, hvp, -, -, hvs, -, hclamp⟩ :=
    c3_paginate_normalizes_and_clamps c3data (some 999) (some 2)
  obtain ⟨h1, h2, h3⟩ := hclamp (by decide)
  exact ⟨h1, h2, h3, hvp 0 (by decide), hvs 500 (by decide)⟩

/-- The region stage equals filtering by its condition. -/
theorem stage_region_eq (f : Filters) (d : List Transaction) :
    (match f.customerRegion with
      | some l => if l.isEmpty then d else FilterService.filterByCustomerRegion d l
      | none => d) = d.filter (FilterService.regionCond f) := by
  cases h : f.customerRegion with
  | none =>
    have hc : FilterService.regionCond f = fun _ => true := by
      funext t
      simp [FilterService.regionCond, h]
    simp [hc]
  | some l =>
    cases hl : l.isEmpty with
    | true =>
      have hc : FilterService.regionCond f = fun _ => true := by
        funext t
        simp [FilterService.regionCond, h, hl]
      simp [hl, hc]
    | false =>
      have hc : FilterService.regionCond f = fun t => l.contains t.customerRegion := by
        funext t
        simp [FilterService.regionCond, h, hl]
      simp [hl, hc, FilterService.filterByCustomerRegion]

/-- The gender stage equals filtering by its condition. -/
theorem stage_gender_eq (f : Filters) (d : List Transaction) :
    (match f.gender with
      | some l => if l.isEmpty then d else FilterService.filterByGender d l
      | none => d) = d.filter (FilterService.genderCond f) := by
  cases h : f.gender with
  | none =>
    have hc : FilterService.genderCond f = fun _ => true := by
      funext t
      simp [FilterService.genderCond, h]
    simp [hc]
  | some l =>
    cases hl : l.isEmpty with
    | true =>
      have hc : FilterService.genderCond f = fun _ => true := by
        funext t
        simp [FilterService.genderCond, h, hl]
      simp [hl, hc]
    | false =>
      have hc : FilterService.genderCond f = fun t => l.contains t.gender := by
        funext t
        simp [FilterService.genderCond, h, hl]
      simp [hl, hc, FilterService.filterByGender]

/-- The age stage equals filtering by its condition. -/
theorem stage_age_eq (f : Filters) (d : List Transaction) :
    (match f.ageRange with
      | some r => FilterService.filterByAgeRange d r
      | none => d) = d.filter (FilterService.ageCond f) := by
  cases h : f.ageRange with
  | none =>
    have hc : FilterService.ageCond f = fun _ => true := by
      funext t
      simp [FilterService.ageCond, h]
    simp [hc]
  | some r =>
    have hc : FilterService.ageCond f = FilterService.ageMatches r := by
      funext t
      simp [FilterService.ageCond, h]
    simp [hc, FilterService.filterByAgeRange]

/-- The category stage equals filtering by its condition. -/
theorem stage_category_eq (f : Filters) (d : List Transaction) :
    (match f.productCategory with
      | some l => if l.isEmpty then d else FilterService.filterByProductCategory d l
      | none => d) = d.filter (FilterService.categoryCond f) := by
  cases h : f.productCategory with
  | none =>
    have hc : FilterService.categoryCond f = fun _ => true := by
      funext t
      simp [FilterService.categoryCond, h]
    simp [hc]
  | some l =>
    cases hl : l.isEmpty with
    | true =>
      have hc : FilterService.categoryCond f = fun _ => true := by
        funext t
        simp [FilterService.categoryCond, h, hl]
      simp [hl, hc]
    | false =>
      have hc : FilterService.categoryCond f = fun t => l.contains t.productCategory := by
        funext t
        simp [FilterService.categoryCond, h, hl]
      simp [hl, hc, FilterService.filterByProductCategory]

/-- The tags stage equals filtering by its condition. -/
theorem stage_tags_eq (f : Filters) (d : List Transaction) :
    (match f.tags with
      | some l => if l.isEmpty then d else FilterService.filterByTags d l
      | none => d) = d.filter (FilterService.tagsCond f) := by
  cases h : f.tags with
  | none =>
    have hc : FilterService.tagsCond f = fun _ => true := by
      funext t
      simp [FilterService.tagsCond, h]
    simp [hc]
  | some l =>
    cases hl : l.isEmpty with
    | true =>
      have hc : FilterService.tagsCond f = fun _ => true := by
        funext t
        simp [FilterService.tagsCond, h, hl]
      simp [hl, hc]
    | false =>
      have hc : FilterService.tagsCond f = fun t => FilterService.tagsMatch l t := by
        funext t
        simp [FilterService.tagsCond, h, hl]
      simp [hl, hc, FilterService.filterByTags]

/-- The payment stage equals filtering by its condition. -/
theorem stage_payment_eq (f : Filters) (d : List Transaction) :
    (match f.paymentMethod with
      | some l => if l.isEmpty then d else FilterService.filterByPaymentMethod d l
      | none => d) = d.filter (FilterService.paymentCond f) := by
  cases h : f.paymentMethod with
  | none =>
    have hc : FilterService.paymentCond f = fun _ => true := by
      funext t
      simp [FilterService.paymentCond, h]
    simp [hc]
  | some l =>
    cases hl : l.isEmpty with
    | true =>
      have hc : FilterService.paymentCond f = fun _ => true := by
        funext t
        simp [FilterService.paymentCond, h, hl]
      simp [hl, hc]
    | false =>
      have hc : FilterService.paymentCond f = fun t => l.contains t.paymentMethod := by
        funext t
        simp [FilterService.paymentCond, h, hl]
      simp [hl, hc, FilterService.filterByPaymentMethod]

/-- The date stage equals filtering by its condition. -/
theorem stage_date_eq (f : Filters) (d : List Transaction) :
    (match f.dateRange with
      | some r => FilterService.filterByDateRange d r
      | none => d) = d.filter (FilterService.dateCond f) := by
  cases h : f.dateRange with
  | none =>
    have hc : FilterService.dateCond f = fun _ => true := by
      funext t
      simp [FilterService.dateCond, h]
    simp [hc]
  | some r =>
    have hc : FilterService.dateCond f = FilterService.dateMatches r := by
      funext t
      simp [FilterService.dateCond, h]
    simp [hc, FilterService.filterByDateRange]

/-- `applyFilters` on a present filter object is the chain of the seven
per-criterion filters. -/
theorem applyFilters_some_eq (data : List Transaction) (f : Filters) :
    FilterService.applyFilters data (some f)
      = ((((((data.filter (FilterService.regionCond f)).filter
            (FilterService.genderCond f)).filter
            (FilterService.ageCond f)).filter
            (FilterService.categoryCond f)).filter
            (FilterService.tagsCond f)).filter
            (FilterService.paymentCond f)).filter
            (FilterService.dateCond f) := by
  simp only [FilterService.applyFilters]
  rw [stage_region_eq f data, stage_gender_eq f, stage_age_eq f, stage_category_eq f,
    stage_tags_eq f, stage_payment_eq f, stage_date_eq f]

/-- C8: `applyFilters` returns a subsequence of its input, every record of
which satisfies every present constraint of the criteria — set membership
for the multi-select fields, a non-empty tag intersection, and inclusive
bounds for the age and date ranges — the criteria acting conjunctively. -/
theorem c8_filter_closure (data : List Transaction) (f : Filters) :
    (FilterService.applyFilters data (some f)).Sublist data
  ∧ ∀ t ∈ FilterService.applyFilters data (some f), satisfiesFilters f t := by
  have heq := applyFilters_some_eq data f
  constructor
  · rw [heq]
    exact (List.filter_sublist _).trans ((List.filter_sublist _).trans
      ((List.filter_sublist _).trans ((List.filter_sublist _).trans
        ((List.filter_sublist _).trans ((List.filter_sublist _).trans
          (List.filter_sublist _))))))
  · intro t ht
    rw [heq] at ht
    have h7 := List.of_mem_filter ht
    have ht6 := List.mem_of_mem_filter ht
    have h6 := List.of_mem_filter ht6
    have ht5 := List.mem_of_mem_filter ht6
    have h5 := List.of_mem_filter ht5
    have ht4 := List.mem_of_mem_filter ht5
    have h4 := List.of_mem_filter ht4
    have ht3 := List.mem_of_mem_filter ht4
    have h3 := List.of_mem_filter ht3
    have ht2 := List.mem_of_mem_filter ht3
    have h2 := List.of_mem_filter ht2
    have ht1 := List.mem_of_mem_filter ht2
    have h1 := List.of_mem_filter ht1
    refine ⟨?_, ?_, ?_, ?_, ?_, ?_, ?_⟩
    · intro l hl hlne
      have hle : l.isEmpty = false := by
        cases l with
        | nil => exact absurd rfl hlne
        | cons a as => rfl
      rw [FilterService.regionCond, hl] at h1
      simp [hle] at h1
      exact h1
    · intro l hl hlne
      have hle : l.isEmpty = false := by
        cases l with
        | nil => exact absurd rfl hlne
        | cons a as => rfl
      rw [FilterService.genderCond, hl] at h2
      simp [hle] at h2
      exact h2
    · intro r hr
      rw [FilterService.ageCond, hr] at h3
      constructor
      · intro mn hmn
        cases hmx : r.max with
        | none => simpa [FilterService.ageMatches, hmn, hmx] using h3
        | some mx =>
          have hand := by simpa [FilterService.ageMatches, hmn, hmx] using h3
          exact hand.1
      · intro mx hmx
        cases hmn : r.min with
        | none => simpa [FilterService.ageMatches, hmn, hmx] using h3
        | some mn =>
          have hand := by simpa [FilterService.ageMatches, hmn, hmx] using h3
          exact hand.2
    · intro l hl hlne
      have hle : l.isEmpty = false := by
        cases l with
        | nil => exact absurd rfl hlne
        | cons a as => rfl
      rw [FilterService.categoryCond, hl] at h4
      simp [hle] at h4
      exact h4
    · intro l hl hlne
      have hle : l.isEmpty = false := by
        cases l with
        | nil => exact absurd rfl hlne
        | cons a as => rfl
      rw [FilterService.tagsCond, hl] at h5
      simp [hle, FilterService.tagsMatch, List.any_eq_true] at h5
      obtain ⟨tag, htl, htt⟩ := h5
      exact ⟨tag, htl, htt⟩
    · intro l hl hlne
      have hle : l.isEmpty = false := by
        cases l with
        | nil => exact absurd rfl hlne
        | cons a as => rfl
      rw [FilterService.paymentCond, hl] at h6
      simp [hle] at h6
      exact h6
    · intro r hr
      rw [FilterService.dateCond, hr] at h7
      constructor
      · intro sb hsb
        cases heb : r.endB with
        | none => simpa [FilterService.dateMatches, hsb, heb] using h7
        | some eb =>
          have := by simpa [FilterService.dateMatches, hsb, heb] using h7
          exact this.1
      · intro eb heb
        cases hsb : r.start with
        | none => simpa [FilterService.dateMatches, hsb, heb] using h7
        | some sb =>
          have := by simpa [FilterService.dateMatches, hsb, heb] using h7
          exact this.2

/-- C8 witness: the closure at concrete data and criteria, with a concrete
record of the filtered result satisfying them. -/
theorem c8_filter_closure_witness :
    (FilterService.applyFilters c8data (some c8f)).Sublist c8data
  ∧ satisfiesFilters c8f c8w1 :=
  ⟨(c8_filter_closure c8data c8f).1,
   (c8_filter_closure c8data c8f).2 c8w1 (by decide)⟩

/-- Lexicographic character comparison is irreflexive. -/
theorem charsLt_irrefl (l : List Char) : charsLt l l = false := by
  induction l with
  | nil => rfl
  | cons c cs ih => simp [charsLt, ih]

/-- The string comparison model is irreflexive. -/
theorem strLtB_irrefl (s : String) : strLtB s s = false :=
  charsLt_irrefl s.data

/-- Inserting into a list never reorders elements sharing the inserted
element's key class, provided the comparator never ranks equal keys apart. -/
theorem filter_sortInsert {α κ : Type} [DecidableEq κ] (gt : α → α → Bool)
    (key : α → κ) (h : ∀ a b, key a = key b → gt a b = false)
    (x : α) (l : List α) (v : κ) :
    (sortInsert gt x l).filter (fun r => decide (key r = v))
      = if key x = v then x :: l.filter (fun r => decide (key r = v))
        else l.filter (fun r => decide (key r = v)) := by
  induction l with
  | nil =>
    simp only [sortInsert]
    by_cases hx : key x = v <;> simp [hx]
  | cons y ys ih =>
    by_cases hg : gt x y = true
    · have hxy : key x = v → ¬ key y = v := by
        intro hx hy
        have := h x y (hx.trans hy.symm)
        rw [this] at hg
        cases hg
      simp only [sortInsert, hg, if_true]
      rw [List.filter_cons, List.filter_cons, ih]
      by_cases hx : key x = v
      · have hy := hxy hx
        simp [hx, hy]
      · by_cases hy : key y = v <;> simp [hx, hy]
    · have hg' : gt x y = false := by
        simpa using hg
      simp only [sortInsert, hg', Bool.false_eq_true, if_false]
      rw [List.filter_cons, List.filter_cons]
      by_cases hx : key x = v <;> by_cases hy : key y = v <;> simp [hx, hy]

/-- The stable-sort model preserves the order of every key class, provided
the comparator never ranks equal keys apart. -/
theorem filter_sortListBy {α κ : Type} [DecidableEq κ] (gt : α → α → Bool)
    (key : α → κ) (h : ∀ a b, key a = key b → gt a b = false)
    (l : List α) (v : κ) :
    (sortListBy gt l).filter (fun r => decide (key r = v))
      = l.filter (fun r => decide (key r = v)) := by
  induction l with
  | nil => rfl
  | cons x xs ih =>
    rw [sortListBy, filter_sortInsert gt key h x _ v, ih, List.filter_cons]
    by_cases hx : key x = v <;> simp [hx]

/-- C9: `sortTransactions` is stable for every sort field and order — for
each value of the comparison key (parsed timestamp, numeric quantity, or
lower-cased customer name), the records of that key appear in the output in
the same relative order as in the input. -/
theorem c9_sort_stable (data : List Transaction) (sortBy sortOrder : String)
    (v : SortService.SortKey) :
    (SortService.sortTransactions data sortBy sortOrder).filter
        (fun t => decide (SortService.sortKey sortBy t = v))
      = data.filter (fun t => decide (SortService.sortKey sortBy t = v)) := by
  unfold SortService.sortTransactions
  by_cases he : data.isEmpty = true
  · simp [he]
  · have he' : data.isEmpty = false := by simpa using he
    by_cases hv : SortService.validSortFields.contains sortBy = true
    · have hv' : sortBy = "date" ∨ sortBy = "quantity" ∨ sortBy = "customerName" := by
        simpa [SortService.validSortFields] using hv
      rcases hv' with hsb | hsb | hsb <;> subst hsb <;>
        simp only [he', Bool.false_eq_true, if_false, hv, Bool.not_true,
          if_true, reduceIte]
      · exact filter_sortListBy _ (fun t => SortService.sortKey ("date") t)
          (by
            intro a b hk
            simp [SortService.sortKey] at hk
            cases hb : b.date with
            | none => simp [SortService.dateGt, hk, hb]
            | some y => simp [SortService.dateGt, hk, hb, lt_irrefl]) data v
      · exact filter_sortListBy _ (fun t => SortService.sortKey ("quantity") t)
          (by
            intro a b hk
            simp [SortService.sortKey] at hk
            simp [SortService.quantityGt, hk, lt_irrefl]) data v
      · exact filter_sortListBy _ (fun t => SortService.sortKey ("customerName") t)
          (by
            intro a b hk
            simp [SortService.sortKey] at hk
            simp [SortService.nameGt, hk, strLtB_irrefl]) data v
    · have hnm : sortBy ∉ SortService.validSortFields := by simpa using hv
      simp [he', hnm]
